import Mathlib

/-!
Verification of the environment-management core of kern/env.c:
the environment table and allocator (env_init, env_alloc, env_free,
envid2env), the executable loader (load_icode), the symbol binder
(bind_functions) and the context switch (env_run), shallowly embedded
as executable Lean functions.  Machine integers are modelled as Nat
with explicit reduction mod 2^32 / 2^64 where the C arithmetic wraps;
bitwise masks of the source are written in their arithmetic form
(x & (2^k - 1) as x % 2^k, x & ~(2^k - 1) as x - x % 2^k, and
g | i as g + i when the low bits of g are clear), with bridging
lemmas relating the two forms proved below.
-/

namespace KernEnv

/-- Capacity of the environment table (`NENV`; kern/env.c documents
"NENV now is 2^10 = 1024"). -/
def NENV : Nat := 1024

/-- `ENVGENSHIFT` from kern/env.c: the generation advances in units of
`1 << ENVGENSHIFT`. -/
def ENVGENSHIFT : Nat := 12

/-- One generation unit, `1 << ENVGENSHIFT` = 4096. -/
def GENUNIT : Nat := 2 ^ ENVGENSHIFT

/-- 2^32, modulus of the 32-bit integer types (`envid_t` is int32_t,
`env_runs` is uint32_t); values are kept as their two's-complement
representatives in [0, 2^32). -/
def U32 : Nat := 2 ^ 32

/-- 2^64, modulus of the 64-bit types (size_t and the uint64 ELF fields). -/
def U64 : Nat := 2 ^ 64

/-- Representative of INT32_MIN: a 32-bit representative `x` denotes a
negative int32_t exactly when `2^31 ≤ x`. -/
def INT32_MIN_REP : Nat := 2 ^ 31

/-- `STACK_AREA_TOP` from env_alloc (CONFIG_KSPACE build). -/
def STACK_AREA_TOP : Nat := 0x2000000

/-- PAGE_SIZE of the kernel (4 KiB pages). -/
def PAGE_SIZE : Nat := 4096

/-- Environment status values (`enum` in inc/env.h, used throughout
kern/env.c). -/
inductive EnvStatus where
  | ENV_FREE
  | ENV_DYING
  | ENV_RUNNABLE
  | ENV_RUNNING
  | ENV_NOT_RUNNABLE
deriving DecidableEq, Repr

/-- The fields of `struct Env` that kern/env.c reads or writes:
identity, parent identity, status, run counter, the trapframe's
instruction and stack pointers, and the non-owning pointer to the
loaded binary image (`env->binary`; 0 models NULL).  The intrusive
free-list link `env_link` is modelled by the explicit index list in
`KState` below. -/
structure Env where
  env_id : Nat := 0
  env_parent_id : Nat := 0
  env_status : EnvStatus := .ENV_FREE
  env_runs : Nat := 0
  tf_rip : Nat := 0
  tf_rsp : Nat := 0
  binary : Nat := 0
deriving DecidableEq, Repr

/-- The mutable global state of kern/env.c: the `envs` array (indexed by
slot number; only indices below `NENV` are meaningful), the free list
`env_free_list` (list of slot indices, head = list head, linked in the
source through `env->env_link`), and `curenv` (none models the NULL
pointer). -/
structure KState where
  envs : Nat → Env
  env_free_list : List Nat
  curenv : Option Nat

/-- Pointwise update of the `envs` array at one slot. -/
def setEnv (f : Nat → Env) (i : Nat) (e : Env) : Nat → Env :=
  fun j => if j = i then e else f j

/-- `ENVX(envid) = envid & (NENV - 1)`: the slot-index component of an
identity.  Since NENV = 2^10, the mask equals reduction mod NENV
(bridging lemma `ENVX_eq_land` below). -/
def ENVX (envid : Nat) : Nat := envid % NENV

/-- Generation component of an identity: the identity with its low
LOGNENV bits cleared (`envid & ~(NENV - 1)` on a 32-bit value). -/
def genOf (envid : Nat) : Nat := envid - envid % NENV

/-- The value the permission check of envid2env reads as
`curenv->env_id`.  When `curenv` is NULL that read is undefined
behaviour in the C source; the model returns 0 there, and every
theorem about the permission path assumes `curenv` is non-null. -/
def curenvId (s : KState) : Nat :=
  match s.curenv with
  | some c => (s.envs c).env_id
  | none => 0

/-- `envid2env` from kern/env.c.  Success carries the stored
`*env_store` pointer: `some idx` for a table slot, or `s.curenv`
itself (possibly none = NULL) for envid 0.  `.error ()` is the
`-E_BAD_ENV` return (with `*env_store = NULL`). -/
def envid2env (s : KState) (envid : Nat) (need_check_perm : Bool) :
    Except Unit (Option Nat) :=
  if envid = 0 then .ok s.curenv
  else
    if (s.envs (ENVX envid)).env_status = .ENV_FREE ∨
        (s.envs (ENVX envid)).env_id ≠ envid then .error ()
    else if need_check_perm ∧ s.curenv ≠ some (ENVX envid) ∧
        (s.envs (ENVX envid)).env_parent_id ≠ curenvId s then .error ()
    else .ok (some (ENVX envid))

/-- An environment record as left by `env_init`: status ENV_FREE,
env_id 0 (the remaining fields are the zero-initialised globals). -/
def initEnv : Env := {}

/-- `env_init` from kern/env.c: every slot FREE with identity 0, linked
in ascending table order, free-list head = slot 0.  `curenv` is the
zero-initialised global NULL at this point. -/
def env_init : KState :=
  { envs := fun _ => initEnv
    env_free_list := List.range NENV
    curenv := none }

/-- The identity computation of env_alloc (kern/env.c lines 124-127):
`generation = (prev + (1 << ENVGENSHIFT)) & ~(NENV - 1)` in int32
arithmetic, bumped to `1 << ENVGENSHIFT` when the signed result is
non-positive, then `generation | idx`.  Written arithmetically: the
int32 sum is the Nat sum reduced mod 2^32; the `& ~(NENV - 1)` mask
clears the low LOGNENV bits (`g0 - g0 % NENV`); the signed test
`generation <= 0` on a 32-bit representative is
`g1 = 0 ∨ INT32_MIN_REP ≤ g1`; and `generation | idx` is
`generation + idx` because the generation's low LOGNENV bits are clear
and `idx < NENV` (bridging lemmas below relate the forms). -/
def newEnvId (prev idx : Nat) : Nat :=
  let g0 := (prev + GENUNIT) % U32
  let g1 := g0 - g0 % NENV
  let generation := if g1 = 0 ∨ INT32_MIN_REP ≤ g1 then GENUNIT else g1
  generation + idx

/-- The record initialisation env_alloc performs on the popped slot:
new identity, parent, status RUNNABLE, run counter 0, trapframe zeroed
(`tf_rip = 0`) and the CONFIG_KSPACE per-slot stack top. -/
def allocEnv (e : Env) (parent_id idx : Nat) : Env :=
  { e with
    env_id := newEnvId e.env_id idx
    env_parent_id := parent_id
    env_status := EnvStatus.ENV_RUNNABLE
    env_runs := 0
    tf_rip := 0
    tf_rsp := STACK_AREA_TOP - 2 * PAGE_SIZE * idx }

/-- `env_alloc` from kern/env.c: fails with `-E_NO_FREE_ENV`
(`.error ()`) when the free list is empty, otherwise initialises the
head slot and pops it, returning the new state and the slot index. -/
def env_alloc (s : KState) (parent_id : Nat) : Except Unit (KState × Nat) :=
  match s.env_free_list with
  | [] => .error ()
  | idx :: rest =>
    .ok ({ s with
      envs := setEnv s.envs idx (allocEnv (s.envs idx) parent_id idx)
      env_free_list := rest }, idx)

/-- `env_free` from kern/env.c: status ENV_FREE, pushed onto the head of
the free list (`env->env_link = env_free_list; env_free_list = env`).
No other field of the record is written. -/
def env_free (s : KState) (i : Nat) : KState :=
  { s with
    envs := setEnv s.envs i { s.envs i with env_status := EnvStatus.ENV_FREE }
    env_free_list := i :: s.env_free_list }

/-- First half of `env_run` (kern/env.c lines 877-895): if `curenv` is
non-null, its status is asserted to be RUNNING, FREE or DYING;
RUNNING is demoted to RUNNABLE, FREE is left alone, and DYING reaches
`panic("not implemented!")`.  `.error` models a failed `assert` or a
`panic`. -/
def demoteCur (s : KState) : Except String KState :=
  match s.curenv with
  | none => .ok s
  | some c =>
    if ¬((s.envs c).env_status = .ENV_RUNNING ∨
         (s.envs c).env_status = .ENV_FREE ∨
         (s.envs c).env_status = .ENV_DYING) then
      .error "assert: curenv->env_status"
    else if (s.envs c).env_status = .ENV_RUNNING then
      .ok { s with
        envs := setEnv s.envs c
          { s.envs c with env_status := EnvStatus.ENV_RUNNABLE } }
    else if (s.envs c).env_status = .ENV_FREE then
      .ok s
    else
      .error "panic: not implemented"

/-- Second half of `env_run` (lines 897-902): the target is asserted
RUNNABLE or DYING, becomes the new `curenv` with status RUNNING, and
its run counter is incremented (`env_runs` is uint32_t, hence the
reduction mod 2^32).  Success carries the state at the instant
`env_pop_tf` transfers control. -/
def runTarget (s1 : KState) (tgt : Nat) : Except String KState :=
  if ¬((s1.envs tgt).env_status = .ENV_RUNNABLE ∨
       (s1.envs tgt).env_status = .ENV_DYING) then
    .error "assert: env->env_status"
  else
    .ok { s1 with
      envs := setEnv s1.envs tgt
        { s1.envs tgt with
          env_status := EnvStatus.ENV_RUNNING
          env_runs := ((s1.envs tgt).env_runs + 1) % U32 }
      curenv := some tgt }

/-- `env_run` from kern/env.c up to the non-returning `env_pop_tf`:
handle the previously current environment, then switch to the
target. -/
def env_run (s : KState) (tgt : Nat) : Except String KState :=
  match demoteCur s with
  | .error m => .error m
  | .ok s1 => runTarget s1 tgt

/-- `N` consecutive calls to env_alloc with no intervening frees,
collecting the identities of the returned environments in order. -/
def allocN (parent : Nat) : Nat → KState → Option (KState × List Nat)
  | 0, s => some (s, [])
  | n + 1, s =>
    match env_alloc s parent with
    | .error _ => none
    | .ok (s1, idx) =>
      match allocN parent n s1 with
      | none => none
      | some (s2, ids) => some (s2, ((s1.envs idx).env_id) :: ids)

/-! ELF format constants and structure sizes.  Modelled from the spec:
the declarations live in inc/elf.h, which is not part of src/; the
values are the standard ELF64 ones the spec refers to as "the expected
fixed sizes for this format". -/

/-- ELF magic number ("\x7fELF" read as a little-endian uint32). -/
def ELF_MAGIC : Nat := 0x464C457F

/-- `ET_EXEC`: executable file type. -/
def ET_EXEC : Nat := 2

/-- `ELFCLASS64` (local constant `ELF_CLASS64` in load_icode). -/
def ELF_CLASS64 : Nat := 2

/-- `ELF_SHN_UNDEF`: the "no section names" sentinel index. -/
def ELF_SHN_UNDEF : Nat := 0

/-- `ELF_SHN_XINDEX` (local constant in load_icode): escape value for
extended section indices. -/
def ELF_SHN_XINDEX : Nat := 0xffff

/-- `ELF_PROG_LOAD` / `PT_LOAD`: loadable program segment type. -/
def PT_LOAD : Nat := 1

/-- `ELF_SHT_SYMTAB`: symbol-table section type. -/
def ELF_SHT_SYMTAB : Nat := 2

/-- `ELF_SHT_STRTAB`: string-table section type. -/
def ELF_SHT_STRTAB : Nat := 3

/-- `ELF_SHT_NOBITS` (local constant in load_icode): section occupying
no file space (.bss). -/
def ELF_SHT_NOBITS : Nat := 8

/-- `sizeof(struct Elf)`: the fixed ELF64 executable header size. -/
def SIZEOF_ELF : Nat := 64

/-- `sizeof(struct Secthdr)`: ELF64 section header entry size. -/
def SIZEOF_SECTHDR : Nat := 64

/-- `sizeof(struct Proghdr)`: ELF64 program header entry size. -/
def SIZEOF_PROGHDR : Nat := 56

/-- `sizeof(struct Elf64_Sym)`: ELF64 symbol-table entry size. -/
def SIZEOF_ELF64_SYM : Nat := 24

/-- The fields of `struct Proghdr` read by load_icode. -/
structure Proghdr where
  p_type : Nat := 0
  p_offset : Nat := 0
  p_va : Nat := 0
  p_pa : Nat := 0
  p_filesz : Nat := 0
  p_memsz : Nat := 0
deriving DecidableEq, Repr

/-- The fields of `struct Secthdr` read by load_icode and
bind_functions.  `sh_name_str` stands for the NUL-terminated string
held at offset `sh_name` in the section-name string table
(`section_names_buffer + sh_name` in the source); the string
comparisons of bind_functions are modelled as String equality. -/
structure Secthdr where
  sh_name_str : String := ""
  sh_type : Nat := 0
  sh_addr : Nat := 0
  sh_offset : Nat := 0
  sh_size : Nat := 0
deriving DecidableEq, Repr

/-- The fields of `struct Elf64_Sym` read by bind_functions.
`st_name_str` stands for the NUL-terminated string at offset `st_name`
in the symbol string table the binder selected
(`symbol_names_buffer + st_name` in the source). -/
structure Elf64_Sym where
  st_name_str : String := ""
  st_info : Nat := 0
  st_value : Nat := 0
deriving DecidableEq, Repr

/-- A raw binary image as load_icode and bind_functions interpret it:
the buffer length, the executable-header fields that are read, and the
decoded program-header table, section-header table and symbol table
(the entries of the first SHT_SYMTAB section).  Well-formedness `wf`
below ties the list lengths to the header counts and every numeric
field to its C-type range. -/
structure ElfImage where
  size : Nat := 0
  e_magic : Nat := 0
  e_class : Nat := 0
  e_type : Nat := 0
  e_entry : Nat := 0
  e_phoff : Nat := 0
  e_shoff : Nat := 0
  e_phentsize : Nat := 0
  e_phnum : Nat := 0
  e_shentsize : Nat := 0
  e_shnum : Nat := 0
  e_shstrndx : Nat := 0
  phdrs : List Proghdr := []
  sections : List Secthdr := []
  symbols : List Elf64_Sym := []
deriving DecidableEq, Repr

/-- Range constraints making an `ElfImage` the decoding of an actual
byte buffer: each field fits its C integer type, and the decoded
tables have exactly the lengths the header announces. -/
def ElfImage.wf (img : ElfImage) : Prop :=
  img.size < U64 ∧ img.e_magic < U32 ∧ img.e_class < 2 ^ 8 ∧
  img.e_type < 2 ^ 16 ∧ img.e_entry < U64 ∧ img.e_phoff < U64 ∧
  img.e_shoff < U64 ∧ img.e_phentsize < 2 ^ 16 ∧ img.e_phnum < 2 ^ 16 ∧
  img.e_shentsize < 2 ^ 16 ∧ img.e_shnum < 2 ^ 16 ∧
  img.e_shstrndx < 2 ^ 16 ∧
  img.phdrs.length = img.e_phnum ∧ img.sections.length = img.e_shnum ∧
  (∀ ph ∈ img.phdrs, ph.p_type < U32 ∧ ph.p_offset < U64 ∧
    ph.p_va < U64 ∧ ph.p_pa < U64 ∧ ph.p_filesz < U64 ∧ ph.p_memsz < U64) ∧
  (∀ sh ∈ img.sections, sh.sh_type < U32 ∧ sh.sh_addr < U64 ∧
    sh.sh_offset < U64 ∧ sh.sh_size < U64)

instance (img : ElfImage) : Decidable img.wf := by
  unfold ElfImage.wf
  infer_instance

/-- One `memcpy` performed by load_icode: destination address, source
offset into the binary buffer, and length. -/
structure LoadCopy where
  dst : Nat
  srcOff : Nat
  len : Nat
deriving DecidableEq, Repr

/-- The observable outcome of load_icode: the return value (`.ok ()` or
the `-E_INVALID_EXE` error), the memcpy calls performed in order, and
the two commits to the environment record — whether `env->binary` was
assigned, and the value assigned to `env->env_tf.tf_rip` if any. -/
instance : DecidableEq (Except Unit Unit) := fun a b =>
  match a, b with
  | .ok (), .ok () => isTrue rfl
  | .error (), .error () => isTrue rfl
  | .ok (), .error () => isFalse (fun h => Except.noConfusion h)
  | .error (), .ok () => isFalse (fun h => Except.noConfusion h)

structure LoadResult where
  ret : Except Unit Unit
  copies : List LoadCopy
  binarySet : Bool
  rip : Option Nat
deriving DecidableEq, Repr

/-- The header validation sequence of load_icode (kern/env.c lines
520-630), in source order: header fits the buffer; magic; file type;
64-bit class; section-header entry size; section-name index not
SHN_UNDEF, not SHN_XINDEX, and below the section count; program-header
entry size; program-header offset non-zero; section- and program-header
offsets inside the buffer; both header tables inside the buffer.  The
two table-bound sums are size_t (uint64) arithmetic, hence the
reduction mod 2^64 (the source marks the missing overflow check with a
FIXME). -/
def headerCheck (img : ElfImage) : Except Unit Unit :=
  if SIZEOF_ELF > img.size then .error ()
  else if img.e_magic ≠ ELF_MAGIC then .error ()
  else if img.e_type ≠ ET_EXEC then .error ()
  else if img.e_class ≠ ELF_CLASS64 then .error ()
  else if img.e_shentsize ≠ SIZEOF_SECTHDR then .error ()
  else if img.e_shstrndx = ELF_SHN_UNDEF then .error ()
  else if img.e_shstrndx = ELF_SHN_XINDEX then .error ()
  else if img.e_shnum ≤ img.e_shstrndx then .error ()
  else if img.e_phentsize ≠ SIZEOF_PROGHDR then .error ()
  else if img.e_phoff = 0 then .error ()
  else if img.size ≤ img.e_shoff then .error ()
  else if img.size ≤ img.e_phoff then .error ()
  else if img.size < (img.e_shoff + SIZEOF_SECTHDR * img.e_shnum) % U64 then .error ()
  else if img.size < (img.e_phoff + SIZEOF_PROGHDR * img.e_phnum) % U64 then .error ()
  else .ok ()

/-- The program-segment loop of load_icode (lines 651-662): for each
header of type PT_LOAD with non-zero file size, check
`p_offset + p_filesz > size` in uint64 arithmetic and either fail or
copy `p_filesz` bytes from offset `p_offset` to address `p_pa`.
Returns the copies performed (also on failure: copies made before the
failing entry are already done) and whether the loop completed. -/
def segLoop (size : Nat) : List Proghdr → List LoadCopy × Bool
  | [] => ([], true)
  | ph :: rest =>
    if ph.p_type = PT_LOAD ∧ 0 < ph.p_filesz then
      if size < (ph.p_offset + ph.p_filesz) % U64 then ([], false)
      else
        let r := segLoop size rest
        (⟨ph.p_pa, ph.p_offset, ph.p_filesz⟩ :: r.1, r.2)
    else segLoop size rest

/-- The section loop of load_icode (lines 666-683): skip SHT_NOBITS
sections; for each remaining section with non-zero address, check
`sh_offset + sh_size > size` in uint64 arithmetic and either fail or
copy `sh_size` bytes from offset `sh_offset` to address `sh_addr`. -/
def secLoop (size : Nat) : List Secthdr → List LoadCopy × Bool
  | [] => ([], true)
  | sh :: rest =>
    if sh.sh_type = ELF_SHT_NOBITS then secLoop size rest
    else if sh.sh_addr ≠ 0 then
      if size < (sh.sh_offset + sh.sh_size) % U64 then ([], false)
      else
        let r := secLoop size rest
        (⟨sh.sh_addr, sh.sh_offset, sh.sh_size⟩ :: r.1, r.2)
    else secLoop size rest

/-- `load_icode` from kern/env.c: the header validation sequence, then
the segment-copy loop, then the section-copy loop, then the commit of
`env->binary`, then the entry-point check, and finally the commit of
the entry point into `env->env_tf.tf_rip`.  The source performs the
zero-entry-point check only after both copy loops and after assigning
`env->binary` (lines 687-703). -/
def load_icode (img : ElfImage) : LoadResult :=
  match headerCheck img with
  | .error _ => ⟨.error (), [], false, none⟩
  | .ok _ =>
    let seg := segLoop img.size img.phdrs
    if ¬seg.2 then ⟨.error (), seg.1, false, none⟩
    else
      let sec := secLoop img.size img.sections
      if ¬sec.2 then ⟨.error (), seg.1 ++ sec.1, false, none⟩
      else if img.e_entry = 0 then ⟨.error (), seg.1 ++ sec.1, true, none⟩
      else ⟨.ok (), seg.1 ++ sec.1, true, some img.e_entry⟩

/-! The symbol binder. -/

/-- The fixed `ASM_EXPORTED_FUNCTIONS` table of bind_functions, with
the kernel code addresses of sys_yield and sys_exit as parameters
(they are link-time constants of the kernel binary). -/
def ASM_EXPORTED_FUNCTIONS (sy se : Nat) : List (String × Nat) :=
  [("sys_yield", sy), ("sys_exit", se)]

/-- Outcome of bind_functions: the in-order (address, value) stores
performed into the loaded image, a negative error code, or a failed
`assert` (modelled separately from the error returns). -/
inductive BindResult where
  | ok (writes : List (Nat × Nat))
  | err (code : Int)
  | panicked
deriving DecidableEq, Repr

/-- The inner loop of bind_functions over ASM_EXPORTED_FUNCTIONS for
one candidate symbol: every table entry whose name equals the symbol
name asserts its address non-zero (`none` models the failed assert)
and stores the address at the symbol's value address, setting
`was_bound`.  Returns the stores and the final `was_bound` flag. -/
def tableLoop (nm : String) (va : Nat) :
    List (String × Nat) → Option (List (Nat × Nat) × Bool)
  | [] => some ([], false)
  | (fn, addr) :: rest =>
    if fn = nm then
      if addr = 0 then none
      else
        match tableLoop nm va rest with
        | none => none
        | some (ws, _) => some ((va, addr) :: ws, true)
    else tableLoop nm va rest

/-- The symbol-table loop of bind_functions (lines 360-452): skip
entries whose binding attribute (`st_info >> 4`) is not 1 (global) or
whose type attribute (`st_info & 0xf`) is not 1 (object); skip entries
whose value address lies outside [bssS, bssE); otherwise run the
kernel table, and if nothing bound, store `find_function(name)` if
non-zero, else store 0.  `none` models the failed assert inside the
table loop. -/
def symLoop (sy se : Nat) (ff : String → Nat) (bssS bssE : Nat) :
    List Elf64_Sym → Option (List (Nat × Nat))
  | [] => some []
  | sym :: rest =>
    if sym.st_info / 16 ≠ 1 ∨ sym.st_info % 16 ≠ 1 then
      symLoop sy se ff bssS bssE rest
    else if sym.st_value < bssS ∨ bssE ≤ sym.st_value then
      symLoop sy se ff bssS bssE rest
    else
      match tableLoop sym.st_name_str sym.st_value (ASM_EXPORTED_FUNCTIONS sy se) with
      | none => none
      | some (ws, was_bound) =>
        if was_bound then
          match symLoop sy se ff bssS bssE rest with
          | none => none
          | some ws2 => some (ws ++ ws2)
        else if ff sym.st_name_str ≠ 0 then
          match symLoop sy se ff bssS bssE rest with
          | none => none
          | some ws2 => some ((sym.st_value, ff sym.st_name_str) :: ws2)
        else
          match symLoop sy se ff bssS bssE rest with
          | none => none
          | some ws2 => some ((sym.st_value, 0) :: ws2)

/-- `bind_functions` from kern/env.c (lines 199-457), for an image that
load_icode accepted.  In source order: the section named by
`e_shstrndx` must have type SHT_STRTAB (else -1); the first section
named ".bss" gives the uninitialized-data range
[sh_addr, sh_addr + sh_size) — the sum is uint64 arithmetic — (none
found: -2); the first SHT_STRTAB section named ".strtab" is the symbol
string table (none: -3); the first SHT_SYMTAB section is the symbol
table (none: trivial success); then the symbol loop runs over
`sh_size / sizeof(struct Elf64_Sym)` entries (rounded down).
`find_function` from kern/kdebug.c is an external parameter `ff`. -/
def bind_functions (img : ElfImage) (sy se : Nat) (ff : String → Nat) :
    BindResult :=
  if (img.sections.getD img.e_shstrndx {}).sh_type ≠ ELF_SHT_STRTAB then
    .err (-1)
  else
    match img.sections.find? (fun s => s.sh_name_str == ".bss") with
    | none => .err (-2)
    | some bsec =>
      match img.sections.find?
          (fun s => s.sh_type == ELF_SHT_STRTAB && s.sh_name_str == ".strtab") with
      | none => .err (-3)
      | some _ =>
        match img.sections.find? (fun s => s.sh_type == ELF_SHT_SYMTAB) with
        | none => .ok []
        | some symtab =>
          match symLoop sy se ff bsec.sh_addr
              ((bsec.sh_addr + bsec.sh_size) % U64)
              (img.symbols.take (symtab.sh_size / SIZEOF_ELF64_SYM)) with
          | none => .panicked
          | some ws => .ok ws

/-- Binding candidate of the spec and of the symbol loop: binding
attribute global (1), type attribute object (1), and value address
inside the uninitialized-data range. -/
def isCandidate (bssS bssE : Nat) (sym : Elf64_Sym) : Prop :=
  sym.st_info / 16 = 1 ∧ sym.st_info % 16 = 1 ∧
  bssS ≤ sym.st_value ∧ sym.st_value < bssE

instance (bssS bssE : Nat) (sym : Elf64_Sym) :
    Decidable (isCandidate bssS bssE sym) := by
  unfold isCandidate
  infer_instance

/-- The resolution order the claim describes for one candidate name:
the fixed kernel table first, then the external resolver if non-zero,
else zero. -/
def claimResolve (sy se : Nat) (ff : String → Nat) (nm : String) : Nat :=
  if nm = "sys_yield" then sy
  else if nm = "sys_exit" then se
  else if ff nm ≠ 0 then ff nm
  else 0

/-! Concrete states and images used as test inputs. -/

/-- A table state whose slot 0 holds a first-generation environment
(identity 4096 = GENUNIT | 0), as produced by the first allocation. -/
def c3State : KState :=
  { envs := fun j =>
      if j = 0 then
        { env_id := 4096, env_status := .ENV_RUNNING, binary := 5 }
      else initEnv
    env_free_list := []
    curenv := none }

/-- A state whose current environment is DYING while slot 1 is
RUNNABLE. -/
def c4Dying : KState :=
  { envs := fun j =>
      if j = 0 then { env_id := 4096, env_status := .ENV_DYING }
      else { env_id := 4097, env_status := .ENV_RUNNABLE }
    env_free_list := []
    curenv := some 0 }

/-- A state whose current environment (slot 0) is RUNNING and whose
slot 1 is RUNNABLE with run counter 7. -/
def c4Run : KState :=
  { envs := fun j =>
      if j = 0 then { env_id := 4096, env_status := .ENV_RUNNING, env_runs := 5 }
      else { env_id := 4097, env_status := .ENV_RUNNABLE, env_runs := 7 }
    env_free_list := []
    curenv := some 0 }

/-- A state whose slot 0 environment holds a non-null image reference
(`binary = 7`). -/
def c6State : KState :=
  { envs := fun _ =>
      { env_id := 4096, env_status := .ENV_RUNNING, binary := 7 }
    env_free_list := []
    curenv := none }

/-- A state with a RUNNING caller in slot 0 and its direct child in
slot 1. -/
def c7State : KState :=
  { envs := fun j =>
      if j = 0 then { env_id := 4096, env_status := .ENV_RUNNING }
      else if j = 1 then
        { env_id := 4097, env_parent_id := 4096, env_status := .ENV_RUNNABLE }
      else initEnv
    env_free_list := []
    curenv := some 0 }

/-- A freshly initialised table with no current environment
(`curenv = NULL`). -/
def c10State : KState :=
  { envs := fun _ => initEnv
    env_free_list := []
    curenv := none }

/-- A well-formed image passing every header check, performing one
section copy, and carrying entry point 0: all header fields valid,
one NOBITS section and one copied section, no program headers. -/
def imgEntryZero : ElfImage :=
  { size := 200, e_magic := ELF_MAGIC, e_class := 2, e_type := 2
    e_entry := 0, e_phoff := 2, e_shoff := 1
    e_phentsize := 56, e_phnum := 0, e_shentsize := 64, e_shnum := 2
    e_shstrndx := 1
    phdrs := []
    sections :=
      [ { sh_name_str := ".bss", sh_type := 8, sh_addr := 0x1000, sh_size := 16 },
        { sh_name_str := ".text", sh_type := 3, sh_addr := 500,
          sh_offset := 0, sh_size := 4 } ]
    symbols := [] }

/-- An image whose very first content check fails: wrong magic. -/
def imgBadMagic : ElfImage :=
  { size := 200, e_magic := 0 }

/-- A well-formed image whose single PT_LOAD program header carries
`p_offset = 2^64 - 1` and `p_filesz = 1`: the uint64 sum wraps to 0, so
the in-file bound check passes although the exact sum exceeds the
buffer length. -/
def imgOverflow : ElfImage :=
  { size := 256, e_magic := ELF_MAGIC, e_class := 2, e_type := 2
    e_entry := 0x1234, e_phoff := 1, e_shoff := 2
    e_phentsize := 56, e_phnum := 1, e_shentsize := 64, e_shnum := 2
    e_shstrndx := 1
    phdrs :=
      [ { p_type := 1, p_offset := 2 ^ 64 - 1, p_va := 0x5000,
          p_pa := 0x5000, p_filesz := 1, p_memsz := 1 } ]
    sections :=
      [ { sh_name_str := ".bss", sh_type := 8 },
        { sh_name_str := ".shstrtab", sh_type := 8 } ]
    symbols := [] }

/-- The .bss section of the binder test image. -/
def bindBss : Secthdr :=
  { sh_name_str := ".bss", sh_type := 8, sh_addr := 0x1000, sh_size := 0x100 }

/-- The symbol-table section of the binder test image: two 24-byte
entries. -/
def bindSymtab : Secthdr :=
  { sh_name_str := ".symtab", sh_type := 2, sh_offset := 120, sh_size := 48 }

/-- A binder test image: section-name table of string-table type, a
.bss section, a .strtab string table, a symbol table with one global
object symbol named sys_yield inside .bss and one global object symbol
outside .bss. -/
def imgBind : ElfImage :=
  { size := 512, e_magic := ELF_MAGIC, e_class := 2, e_type := 2
    e_entry := 0x1234, e_phoff := 1, e_shoff := 2
    e_phentsize := 56, e_phnum := 0, e_shentsize := 64, e_shnum := 4
    e_shstrndx := 0
    phdrs := []
    sections :=
      [ { sh_name_str := ".shstrtab", sh_type := 3, sh_offset := 64, sh_size := 32 },
        bindBss,
        { sh_name_str := ".strtab", sh_type := 3, sh_offset := 96, sh_size := 24 },
        bindSymtab ]
    symbols :=
      [ { st_name_str := "sys_yield", st_info := 0x11, st_value := 0x1080 },
        { st_name_str := "other", st_info := 0x11, st_value := 0x2000 } ] }

/-- An external resolver that finds nothing. -/
def ffZero : String → Nat := fun _ => 0

/-! Bridging lemmas: the bitwise operations of the source agree with
the arithmetic forms used in the definitions above. -/

/-- The slot-index extraction `ENVX(envid) = envid & (NENV - 1)` of the
source agrees with the arithmetic form `envid % NENV` of the model. -/
theorem ENVX_eq_land (x : Nat) : ENVX x = x &&& (NENV - 1) := by
  show x % NENV = x &&& (NENV - 1)
  have h : NENV = 2 ^ 10 := rfl
  rw [h, Nat.and_pow_two_sub_one_eq_mod]

/-- The identity composition `generation | idx` of the source agrees
with the sum `generation + idx` used in `newEnvId`, whenever the
generation has its low LOGNENV bits clear and the index is a valid
slot number. -/
theorem gen_or_eq_add (g i : Nat) (hg : g % NENV = 0) (hi : i < NENV) :
    g ||| i = g + i := by
  have h : NENV = 2 ^ 10 := rfl
  rw [h] at hg hi
  obtain ⟨a, rfl⟩ := Nat.dvd_of_mod_eq_zero hg
  rw [(Nat.mul_add_lt_is_or hi a).symm]

/-- The cleared-low-bits form `g0 - g0 % NENV` used in `newEnvId` has
its low LOGNENV bits clear. -/
theorem genClear_mod (g0 : Nat) : (g0 - g0 % NENV) % NENV = 0 := by
  show (g0 - g0 % 1024) % 1024 = 0
  omega

/-- The generation mask of the source, `x & ~(NENV - 1)` on a 32-bit
value (the complement mask being 2^32 - NENV), agrees with the
cleared-low-bits arithmetic form `x - x % NENV` used in `newEnvId`. -/
theorem genClear_eq_land (x : Nat) (hx : x < U32) :
    x - x % NENV = x &&& (U32 - NENV) := by
  have hx32 : x < 2 ^ 32 := hx
  show x - x % 2 ^ 10 = x &&& (2 ^ 32 - 2 ^ 10)
  apply Nat.eq_of_testBit_eq
  intro i
  rw [Nat.testBit_and]
  have hsub : (2 : Nat) ^ 32 - 2 ^ 10 = 2 ^ 10 * (2 ^ 22 - 1) := by norm_num
  have hx2 : x - x % 2 ^ 10 = 2 ^ 10 * (x / 2 ^ 10) := by
    omega
  rw [hx2, hsub]
  rw [Nat.testBit_mul_pow_two, Nat.testBit_mul_pow_two]
  rw [← Nat.shiftRight_eq_div_pow, Nat.testBit_shiftRight]
  by_cases hi : 10 ≤ i
  · rw [Nat.testBit_two_pow_sub_one]
    by_cases hlt : i - 10 < 22
    · rw [show 10 + (i - 10) = i by omega]
      simp [hi, hlt]
    · have hfalse : x.testBit i = false := Nat.testBit_lt_two_pow (by
        calc x < 2 ^ 32 := hx32
        _ ≤ 2 ^ i := Nat.pow_le_pow_right (by norm_num) (by omega))
      rw [show 10 + (i - 10) = i by omega]
      simp [hi, hlt, hfalse]
  · simp [hi]

/-- Reading the slot a `setEnv` wrote returns the new record. -/
theorem setEnv_same (f : Nat → Env) (i : Nat) (e : Env) : setEnv f i e i = e := by
  simp [setEnv]

/-- Reading any other slot is unchanged by `setEnv`. -/
theorem setEnv_other (f : Nat → Env) (i j : Nat) (e : Env) (h : j ≠ i) :
    setEnv f i e j = f j := by
  simp [setEnv, h]

/-- newEnvId without int32 wraparound: when the previous identity plus
one generation unit is still a positive int32, the new identity is
exactly the previous one advanced by one generation unit. -/
theorem newEnvId_no_wrap (prev idx : Nat) (hidx : prev % NENV = idx)
    (h : prev + GENUNIT < INT32_MIN_REP) :
    newEnvId prev idx = prev + GENUNIT := by
  have hidx2 : prev % 1024 = idx := hidx
  have h2 : prev + 4096 < 2147483648 := h
  show (if (prev + 4096) % 4294967296 - (prev + 4096) % 4294967296 % 1024 = 0 ∨
      2147483648 ≤ (prev + 4096) % 4294967296 - (prev + 4096) % 4294967296 % 1024
      then 4096
      else (prev + 4096) % 4294967296 - (prev + 4096) % 4294967296 % 1024) + idx
      = prev + 4096
  rw [Nat.mod_eq_of_lt (by omega)]
  rw [if_neg (by omega)]
  omega

/-- newEnvId with int32 wraparound: when the advanced generation would
not be a positive int32 any more, the guard resets it to the minimum
positive generation, one generation unit. -/
theorem newEnvId_wrap (prev idx : Nat) (hidx : prev % NENV = idx)
    (hlt : prev < INT32_MIN_REP) (h : INT32_MIN_REP ≤ prev + GENUNIT) :
    newEnvId prev idx = GENUNIT + idx := by
  have hidx2 : prev % 1024 = idx := hidx
  have hlt2 : prev < 2147483648 := hlt
  have h2 : 2147483648 ≤ prev + 4096 := h
  show (if (prev + 4096) % 4294967296 - (prev + 4096) % 4294967296 % 1024 = 0 ∨
      2147483648 ≤ (prev + 4096) % 4294967296 - (prev + 4096) % 4294967296 % 1024
      then 4096
      else (prev + 4096) % 4294967296 - (prev + 4096) % 4294967296 % 1024) + idx
      = 4096 + idx
  rw [Nat.mod_eq_of_lt (by omega)]
  rw [if_pos (by omega)]

/-! C6 — Free(environment). -/

/-- C6 (amended): env_free sets the environment's status to FREE and
pushes its slot onto the head of the free list (LIFO), but leaves the
image reference `env->binary` unchanged — it is not cleared. -/
theorem env_free_lifo (s : KState) (i : Nat) :
    (env_free s i).envs i = { s.envs i with env_status := .ENV_FREE } ∧
    (env_free s i).env_free_list = i :: s.env_free_list ∧
    ((env_free s i).envs i).binary = (s.envs i).binary := by
  refine ⟨?_, rfl, ?_⟩ <;> simp [env_free, setEnv]

/-- C6 counterexample: freeing slot 0 of `c6State` sets the status to
FREE and pushes the slot, but the image reference keeps its old
non-null value 7 instead of being cleared. -/
theorem env_free_keeps_binary :
    ((env_free c6State 0).envs 0).env_status = .ENV_FREE ∧
    (env_free c6State 0).env_free_list = [0] ∧
    (c6State.envs 0).binary = 7 ∧
    ((env_free c6State 0).envs 0).binary = 7 ∧
    ((env_free c6State 0).envs 0).binary ≠ 0 := by
  refine ⟨rfl, rfl, rfl, rfl, ?_⟩
  decide

/-! C10 — Lookup(0) with no current environment. -/

/-- C10: when no environment is current, looking up handle 0 still
succeeds and stores the NULL pointer as the result, so success does
not guarantee a valid environment reference. -/
theorem envid2env_zero_null (s : KState) (b : Bool) (h : s.curenv = none) :
    envid2env s 0 b = .ok none := by
  simp [envid2env, h]

/-- Witness for C10 at the concrete state `c10State`. -/
theorem envid2env_zero_null_witness :
    c10State.curenv = none ∧ envid2env c10State 0 true = .ok none :=
  ⟨rfl, envid2env_zero_null c10State true rfl⟩

/-! C7 — Lookup(handle, require_permission). -/

/-- C7: handle 0 always resolves to the caller, whatever the table
holds; a non-zero handle resolves the slot given by its index
component and fails with BadHandle exactly when that slot is FREE, or
its stored identity differs from the handle, or the permission check
is requested and the resolved slot is neither the caller nor a direct
child of the caller; when it does not fail it returns the resolved
slot. -/
theorem envid2env_spec (s : KState) (b : Bool) (envid c : Nat)
    (h0 : envid ≠ 0) (hc : s.curenv = some c) :
    (∀ b2, envid2env s 0 b2 = .ok s.curenv) ∧
    (envid2env s envid b = .error () ↔
      (s.envs (ENVX envid)).env_status = .ENV_FREE ∨
      (s.envs (ENVX envid)).env_id ≠ envid ∨
      (b = true ∧ ENVX envid ≠ c ∧
        (s.envs (ENVX envid)).env_parent_id ≠ (s.envs c).env_id)) ∧
    (envid2env s envid b ≠ .error () →
      envid2env s envid b = .ok (some (ENVX envid))) := by
  have hq : curenvId s = (s.envs c).env_id := by
    unfold curenvId
    rw [hc]
  refine ⟨fun b2 => by simp [envid2env], ?_, ?_⟩
  · unfold envid2env
    rw [if_neg h0, hq, hc]
    by_cases h1 : (s.envs (ENVX envid)).env_status = .ENV_FREE ∨
        (s.envs (ENVX envid)).env_id ≠ envid
    · rw [if_pos h1]
      refine ⟨fun _ => ?_, fun _ => rfl⟩
      rcases h1 with h | h
      · exact Or.inl h
      · exact Or.inr (Or.inl h)
    · rw [if_neg h1]
      push_neg at h1
      by_cases h2 : b = true ∧ ¬(some c = some (ENVX envid)) ∧
          (s.envs (ENVX envid)).env_parent_id ≠ (s.envs c).env_id
      · rw [if_pos h2]
        obtain ⟨hb, hne, hp⟩ := h2
        exact ⟨fun _ => Or.inr (Or.inr ⟨hb, fun he => hne (by rw [he]), hp⟩),
          fun _ => rfl⟩
      · rw [if_neg h2]
        constructor
        · intro habs
          exact Except.noConfusion habs
        · intro hrhs
          exfalso
          rcases hrhs with h | h | ⟨hb, hne, hp⟩
          · exact h1.1 h
          · exact h h1.2
          · exact h2 ⟨hb, fun he => hne (Option.some_injective _ he).symm, hp⟩
  · unfold envid2env
    rw [if_neg h0]
    split_ifs with hA hB
    · intro h
      exact absurd rfl h
    · intro h
      exact absurd rfl h
    · intro _
      rfl

/-- Witness for C7: in `c7State` the caller occupies slot 0 and its
direct child, identity 4097, occupies slot 1; lookup of 4097 with the
permission check succeeds and resolves slot 1, while the failure
characterisation holds as an equivalence. -/
theorem envid2env_spec_witness :
    (4097 : Nat) ≠ 0 ∧ c7State.curenv = some 0 ∧
    ((∀ b2, envid2env c7State 0 b2 = .ok c7State.curenv) ∧
      (envid2env c7State 4097 true = .error () ↔
        (c7State.envs (ENVX 4097)).env_status = .ENV_FREE ∨
        (c7State.envs (ENVX 4097)).env_id ≠ 4097 ∨
        (true = true ∧ ENVX 4097 ≠ 0 ∧
          (c7State.envs (ENVX 4097)).env_parent_id ≠
            (c7State.envs 0).env_id)) ∧
      (envid2env c7State 4097 true ≠ .error () →
        envid2env c7State 4097 true = .ok (some (ENVX 4097)))) :=
  ⟨by decide, rfl, envid2env_spec c7State true 4097 0 (by decide) rfl⟩

/-! C4 — Run(target). -/

/-- C4 (amended): running a RUNNABLE target promotes it to RUNNING as
the new current environment and increments its run counter by exactly
one; a previously current environment in RUNNING is demoted to
RUNNABLE, and one in FREE is left untouched (it is an accepted
pass-through state).  A previously current environment in DYING is
not passed through: it reaches `panic("not implemented!")`
(counterexample below), so DYING is excluded here. -/
theorem env_run_spec (s : KState) (tgt : Nat)
    (htgt : (s.envs tgt).env_status = .ENV_RUNNABLE)
    (hcur : ∀ c, s.curenv = some c →
      (s.envs c).env_status = .ENV_RUNNING ∨ (s.envs c).env_status = .ENV_FREE)
    (hruns : (s.envs tgt).env_runs + 1 < U32) :
    ∃ s2, env_run s tgt = .ok s2 ∧
      s2.curenv = some tgt ∧
      (s2.envs tgt).env_status = .ENV_RUNNING ∧
      (s2.envs tgt).env_runs = (s.envs tgt).env_runs + 1 ∧
      ∀ c, s.curenv = some c → c ≠ tgt →
        ((s.envs c).env_status = .ENV_RUNNING →
          s2.envs c = { s.envs c with env_status := .ENV_RUNNABLE }) ∧
        ((s.envs c).env_status = .ENV_FREE → s2.envs c = s.envs c) := by
  have hrt : ∀ s1 : KState, (s1.envs tgt).env_status = .ENV_RUNNABLE →
      runTarget s1 tgt = .ok { s1 with
        envs := setEnv s1.envs tgt
          { s1.envs tgt with
            env_status := EnvStatus.ENV_RUNNING
            env_runs := ((s1.envs tgt).env_runs + 1) % U32 }
        curenv := some tgt } := by
    intro s1 h
    unfold runTarget
    rw [if_neg (by simp [h])]
  cases hcv : s.curenv with
  | none =>
    have hd : demoteCur s = .ok s := by
      unfold demoteCur
      rw [hcv]
    have he : env_run s tgt = runTarget s tgt := by
      unfold env_run
      rw [hd]
    rw [he, hrt s htgt]
    refine ⟨_, rfl, rfl, ?_, ?_, ?_⟩
    · simp [setEnv]
    · simp [setEnv, Nat.mod_eq_of_lt hruns]
    · intro c2 hc2
      cases hc2
  | some c =>
    rcases hcur c hcv with hrun | hfree
    · have hne : c ≠ tgt := by
        intro h
        subst h
        rw [htgt] at hrun
        cases hrun
      have hd : demoteCur s = .ok { s with envs := setEnv s.envs c ({ s.envs c with env_status := EnvStatus.ENV_RUNNABLE }) } := by
        unfold demoteCur
        simp only [hcv]
        rw [if_neg (by simp [hrun]), if_pos hrun]
      have he : env_run s tgt = runTarget { s with envs := setEnv s.envs c ({ s.envs c with env_status := EnvStatus.ENV_RUNNABLE }) } tgt := by
        unfold env_run
        rw [hd]
      rw [he, hrt _ (by simp [setEnv, Ne.symm hne, htgt])]
      refine ⟨_, rfl, rfl, ?_, ?_, ?_⟩
      · simp [setEnv]
      · simp [setEnv, Ne.symm hne, Nat.mod_eq_of_lt hruns]
      · intro c2 hc2 hne2
        injection hc2 with hc2e
        subst hc2e
        refine ⟨fun _ => ?_, fun hf => ?_⟩
        · simp [setEnv, hne2]
        · rw [hf] at hrun
          cases hrun
    · have hne : c ≠ tgt := by
        intro h
        subst h
        rw [htgt] at hfree
        cases hfree
      have hd : demoteCur s = .ok s := by
        unfold demoteCur
        simp only [hcv]
        rw [if_neg (by simp [hfree]), if_neg (by simp [hfree]), if_pos hfree]
      have he : env_run s tgt = runTarget s tgt := by
        unfold env_run
        rw [hd]
      rw [he, hrt s htgt]
      refine ⟨_, rfl, rfl, ?_, ?_, ?_⟩
      · simp [setEnv]
      · simp [setEnv, Nat.mod_eq_of_lt hruns]
      · intro c2 hc2 hne2
        injection hc2 with hc2e
        subst hc2e
        refine ⟨fun hr => ?_, fun _ => ?_⟩
        · rw [hr] at hfree
          cases hfree
        · simp [setEnv, hne2]

/-- Witness for C4 at `c4Run`: slot 0 is the RUNNING caller, slot 1 is
RUNNABLE with run counter 7. -/
theorem env_run_spec_witness :
    (c4Run.envs 1).env_status = .ENV_RUNNABLE ∧
    ∃ s2, env_run c4Run 1 = .ok s2 ∧
      s2.curenv = some 1 ∧
      (s2.envs 1).env_status = .ENV_RUNNING ∧
      (s2.envs 1).env_runs = (c4Run.envs 1).env_runs + 1 ∧
      ∀ c, c4Run.curenv = some c → c ≠ 1 →
        ((c4Run.envs c).env_status = .ENV_RUNNING →
          s2.envs c = { c4Run.envs c with env_status := .ENV_RUNNABLE }) ∧
        ((c4Run.envs c).env_status = .ENV_FREE → s2.envs c = c4Run.envs c) :=
  ⟨rfl, env_run_spec c4Run 1 rfl
    (fun c hc => by
      have h : (0 : Nat) = c := by injection hc
      subst h
      left
      rfl)
    (by decide)⟩

/-- C4 counterexample: with the current environment in DYING (an
"accepted pass-through state" per the claim) and a RUNNABLE target,
env_run does not pass through: it hits `panic("not implemented!")`. -/
theorem env_run_dying_panics :
    c4Dying.curenv = some 0 ∧
    (c4Dying.envs 0).env_status = .ENV_DYING ∧
    (c4Dying.envs 1).env_status = .ENV_RUNNABLE ∧
    env_run c4Dying 1 = .error "panic: not implemented" :=
  ⟨rfl, rfl, rfl, rfl⟩

/-! C3 — Free then reallocate a slot. -/

/-- C3: freeing the environment in slot `i` and allocating again
returns the same slot holding a fresh identity: the new identity has
the same slot-index component, a non-zero generation component, and
differs from the old identity — strictly greater whenever the
generation arithmetic does not reach the int32 wraparound guard, and
reset to the minimum positive generation unit when it does — and the
old identity subsequently fails Lookup with BadHandle.  The
hypotheses say that slot `i` holds an identity of the shape the
allocator produces: index component `i`, generation at least one
unit, positive as an int32. -/
theorem env_realloc_fresh_id (s : KState) (i p : Nat) (hi : i < NENV)
    (hidx : (s.envs i).env_id % NENV = i)
    (hlo : GENUNIT ≤ (s.envs i).env_id)
    (hhi : (s.envs i).env_id < INT32_MIN_REP) :
    ∃ s2, env_alloc (env_free s i) p = .ok (s2, i) ∧
      (s2.envs i).env_id % NENV = i ∧
      genOf ((s2.envs i).env_id) ≠ 0 ∧
      (s2.envs i).env_id ≠ (s.envs i).env_id ∧
      ((s.envs i).env_id + GENUNIT < INT32_MIN_REP →
        (s.envs i).env_id < (s2.envs i).env_id) ∧
      (INT32_MIN_REP ≤ (s.envs i).env_id + GENUNIT →
        genOf ((s2.envs i).env_id) = GENUNIT) ∧
      envid2env s2 ((s.envs i).env_id) false = .error () := by
  have hi2 : i < 1024 := hi
  have hidx2 : (s.envs i).env_id % 1024 = i := hidx
  have hlo2 : 4096 ≤ (s.envs i).env_id := hlo
  have hhi2 : (s.envs i).env_id < 2147483648 := hhi
  have hmain : env_alloc (env_free s i) p =
      .ok ({ s with envs := setEnv (env_free s i).envs i (allocEnv ((env_free s i).envs i) p i), env_free_list := s.env_free_list }, i) := rfl
  have hidv : (allocEnv ((env_free s i).envs i) p i).env_id =
      newEnvId ((s.envs i).env_id) i := by
    simp [allocEnv, env_free, setEnv_same]
  have hstat : (allocEnv ((env_free s i).envs i) p i).env_status =
      EnvStatus.ENV_RUNNABLE := by
    simp [allocEnv]
  rw [hmain]
  have hgen : NENV = 1024 := rfl
  by_cases hw : (s.envs i).env_id + GENUNIT < INT32_MIN_REP
  · have hnew : newEnvId ((s.envs i).env_id) i =
        (s.envs i).env_id + GENUNIT :=
      newEnvId_no_wrap _ _ hidx hw
    have hG : GENUNIT = 4096 := rfl
    refine ⟨_, rfl, ?_, ?_, ?_, ?_, ?_, ?_⟩
    · simp only [setEnv_same, hidv, hnew, hgen, hG]
      omega
    · simp only [setEnv_same, hidv, hnew, genOf, hgen, hG]
      omega
    · simp only [setEnv_same, hidv, hnew, hG]
      omega
    · intro _
      simp only [setEnv_same, hidv, hnew, hG]
      omega
    · intro hcontra
      exact absurd hcontra (not_le.mpr hw)
    · unfold envid2env
      rw [if_neg (by omega : ¬(s.envs i).env_id = 0)]
      rw [show ENVX ((s.envs i).env_id) = i from hidx]
      rw [if_pos (Or.inr (by
        simp only [setEnv_same, hidv, hnew, hG]
        omega))]
  · have hnew : newEnvId ((s.envs i).env_id) i = GENUNIT + i :=
      newEnvId_wrap _ _ hidx hhi (le_of_not_lt hw)
    have hG : GENUNIT = 4096 := rfl
    have hw2 : 2147483648 ≤ (s.envs i).env_id + 4096 := le_of_not_lt hw
    refine ⟨_, rfl, ?_, ?_, ?_, ?_, ?_, ?_⟩
    · simp only [setEnv_same, hidv, hnew, hgen, hG]
      omega
    · simp only [setEnv_same, hidv, hnew, genOf, hgen, hG]
      omega
    · simp only [setEnv_same, hidv, hnew, hG]
      omega
    · intro hcontra
      exact absurd hcontra hw
    · intro _
      simp only [setEnv_same, hidv, hnew, genOf, hgen, hG]
      omega
    · unfold envid2env
      rw [if_neg (by omega : ¬(s.envs i).env_id = 0)]
      rw [show ENVX ((s.envs i).env_id) = i from hidx]
      rw [if_pos (Or.inr (by
        simp only [setEnv_same, hidv, hnew, hG]
        omega))]

/-- Allocation from a block of zero-identity free slots: if the free
list is `List.range' a b` and every listed slot holds identity 0,
then N ≤ b allocations pop slots a, a+1, ... in order, each receiving
identity GENUNIT + slot. -/
theorem allocN_from_zero_block_aux (parent : Nat) :
    ∀ (N a b : Nat) (s : KState), N ≤ b →
      s.env_free_list = List.range' a b →
      (∀ j ∈ s.env_free_list, (s.envs j).env_id = 0) →
      ∃ s2, allocN parent N s =
        some (s2, (List.range' a N).map (fun j => GENUNIT + j)) := by
  intro N
  induction N with
  | zero =>
    intro a b s _ _ _
    exact ⟨s, rfl⟩
  | succ n ih =>
    intro a b s hN hfl hz
    cases b with
    | zero => exact absurd hN (by omega)
    | succ b2 =>
      have hfl2 : s.env_free_list = a :: List.range' (a + 1) b2 := by
        rw [hfl, List.range'_succ]
      have hid0 : (s.envs a).env_id = 0 := by
        apply hz
        rw [hfl2]
        exact List.mem_cons_self _ _
      have hal : env_alloc s parent = .ok ({ s with envs := setEnv s.envs a (allocEnv (s.envs a) parent a), env_free_list := List.range' (a + 1) b2 }, a) := by
        unfold env_alloc
        simp only [hfl2]
      have hz2 : ∀ j ∈ List.range' (a + 1) b2,
          ((setEnv s.envs a (allocEnv (s.envs a) parent a)) j).env_id = 0 := by
        intro j hj
        rw [List.mem_range'] at hj
        obtain ⟨i, hi, rfl⟩ := hj
        rw [setEnv_other _ _ _ _ (by omega)]
        apply hz
        rw [hfl, List.mem_range']
        exact ⟨i + 1, by omega, by omega⟩
      obtain ⟨s2, hrec⟩ := ih (a + 1) b2
        { s with envs := setEnv s.envs a (allocEnv (s.envs a) parent a), env_free_list := List.range' (a + 1) b2 }
        (by omega) rfl hz2
      refine ⟨s2, ?_⟩
      have hnn : newEnvId 0 a = GENUNIT + a := rfl
      have hhead : ((({ s with envs := setEnv s.envs a (allocEnv (s.envs a) parent a), env_free_list := List.range' (a + 1) b2 } : KState)).envs a).env_id = GENUNIT + a := by
        simp only [setEnv_same, allocEnv, hid0, hnn]
      simp only [allocN, hal, hrec, hhead, List.range'_succ, List.map_cons]
      simp only [setEnv_same, allocEnv, hid0, hnn]

/-- C8: starting from a freshly initialised table, every sequence of
N ≤ NENV allocations with no intervening frees succeeds and returns
identities whose slot-index components are exactly 0, 1, ..., N-1 in
that order, each identity carrying a non-zero generation component. -/
theorem allocN_ascending (N : Nat) (hN : N ≤ NENV) :
    ∃ s2 ids, allocN 0 N env_init = some (s2, ids) ∧
      ids.map (fun id => id % NENV) = List.range N ∧
      ∀ id ∈ ids, genOf id ≠ 0 := by
  have hfl : env_init.env_free_list = List.range' 0 NENV := by
    simp only [env_init]
    exact List.range_eq_range' NENV
  have hz : ∀ j ∈ env_init.env_free_list, (env_init.envs j).env_id = 0 :=
    fun j _ => rfl
  obtain ⟨s2, h⟩ := allocN_from_zero_block_aux 0 N 0 NENV env_init hN hfl hz
  have hNn : NENV = 1024 := rfl
  refine ⟨s2, _, h, ?_, ?_⟩
  · rw [List.map_map, List.range_eq_range']
    have hcong : ∀ j ∈ List.range' 0 N,
        ((fun id => id % NENV) ∘ (fun j => GENUNIT + j)) j = j := by
      intro j hj
      rw [List.mem_range'] at hj
      obtain ⟨i, hi, rfl⟩ := hj
      show (4096 + (0 + 1 * i)) % 1024 = 0 + 1 * i
      omega
    rw [List.map_congr_left hcong, List.map_id']
  · intro id hid
    rw [List.mem_map] at hid
    obtain ⟨j, hj, rfl⟩ := hid
    rw [List.mem_range'] at hj
    obtain ⟨i, hi, rfl⟩ := hj
    show 4096 + (0 + 1 * i) - (4096 + (0 + 1 * i)) % 1024 ≠ 0
    have : i < 1024 := by omega
    omega

/-- Witness for C8 with N = 3 allocations. -/
theorem allocN_ascending_witness :
    (3 : Nat) ≤ NENV ∧
    (∃ s2 ids, allocN 0 3 env_init = some (s2, ids) ∧
      ids.map (fun id => id % NENV) = List.range 3 ∧
      ∀ id ∈ ids, genOf id ≠ 0) :=
  ⟨by decide, allocN_ascending 3 (by decide)⟩

/-! C1 — Loader validation and side effects. -/

/-- C1 (amended): a failed header validation (truncated header, bad
magic, wrong file type, wrong class, wrong entry sizes, bad
section-name index, zero program-header offset, out-of-range or
oversized header tables) makes load_icode return MalformedExecutable
before any memory copy and with no commit to the environment record;
and on every failure, whatever the path, the entry point is never
committed.  The per-segment and per-section bound checks and the
zero-entry-point check are not covered by the first part: they run
after earlier copies (and, for the entry check, after the image
reference is committed) — see the counterexample. -/
theorem load_icode_validation (img : ElfImage) :
    (headerCheck img = .error () → load_icode img = ⟨.error (), [], false, none⟩) ∧
    ((load_icode img).ret = .error () → (load_icode img).rip = none) := by
  constructor
  · intro h
    unfold load_icode
    rw [h]
  · unfold load_icode
    cases hh : headerCheck img with
    | error e =>
      intro _
      rfl
    | ok u =>
      dsimp only
      split_ifs with h1 h2 h3 <;> intro h <;> simp_all

/-- Witness for the header-failure part of C1 at the bad-magic image. -/
theorem load_icode_validation_witness :
    headerCheck imgBadMagic = .error () ∧
    load_icode imgBadMagic = ⟨.error (), [], false, none⟩ :=
  ⟨by decide, (load_icode_validation imgBadMagic).1 (by decide)⟩

/-- C1 counterexample: `imgEntryZero` is a well-formed image that
passes every header check but has entry point 0.  load_icode rejects
it, yet only after copying a section into memory and committing the
image reference `env->binary` — observable partial side effects on a
rejected binary, contradicting the claim that every single-check
failure is rejected before any memory copy with no side effects. -/
theorem load_icode_entry_check_after_copy :
    imgEntryZero.wf ∧
    (load_icode imgEntryZero).ret = .error () ∧
    (load_icode imgEntryZero).copies = [⟨500, 0, 4⟩] ∧
    (load_icode imgEntryZero).binarySet = true ∧
    (load_icode imgEntryZero).rip = none := by
  decide

/-! C5 — Loader bound checks under exact arithmetic. -/

/-- C5: the bound checks do not hold under exact arithmetic.
`imgOverflow` is a well-formed image whose single loadable segment has
`p_offset = 2^64 - 1` and `p_filesz = 1`: the uint64 sum wraps to 0,
the in-file check passes, load_icode accepts the image and performs a
copy whose source offset lies far outside the 256-byte buffer, while
the exact sum `p_offset + p_filesz` exceeds the buffer length.  (The
source marks the missing overflow checks with explicit FIXME
comments.) -/
theorem load_icode_overflow_defeats_bound :
    imgOverflow.wf ∧
    (load_icode imgOverflow).ret = .ok () ∧
    (load_icode imgOverflow).copies = [⟨0x5000, 2 ^ 64 - 1, 1⟩] ∧
    (imgOverflow.phdrs.getD 0 {}).p_type = PT_LOAD ∧
    0 < (imgOverflow.phdrs.getD 0 {}).p_filesz ∧
    imgOverflow.size <
      (imgOverflow.phdrs.getD 0 {}).p_offset +
        (imgOverflow.phdrs.getD 0 {}).p_filesz := by
  decide

/-- Witness for C3 at `c3State`: slot 0 holds identity 4096; freeing
and reallocating yields a fresh identity on slot 0 and the old
identity fails lookup. -/
theorem env_realloc_fresh_id_witness :
    ((0 : Nat) < NENV ∧ (c3State.envs 0).env_id % NENV = 0 ∧
      GENUNIT ≤ (c3State.envs 0).env_id ∧
      (c3State.envs 0).env_id < INT32_MIN_REP) ∧
    (∃ s2, env_alloc (env_free c3State 0) 9 = .ok (s2, 0) ∧
      (s2.envs 0).env_id % NENV = 0 ∧
      genOf ((s2.envs 0).env_id) ≠ 0 ∧
      (s2.envs 0).env_id ≠ (c3State.envs 0).env_id ∧
      ((c3State.envs 0).env_id + GENUNIT < INT32_MIN_REP →
        (c3State.envs 0).env_id < (s2.envs 0).env_id) ∧
      (INT32_MIN_REP ≤ (c3State.envs 0).env_id + GENUNIT →
        genOf ((s2.envs 0).env_id) = GENUNIT) ∧
      envid2env s2 ((c3State.envs 0).env_id) false = .error ()) :=
  ⟨⟨by decide, by decide, by decide, by decide⟩,
    env_realloc_fresh_id c3State 0 9 (by decide) (by decide) (by decide)
      (by decide)⟩

/-! C2 and C9 — the Symbol Binder. -/

/-- The kernel-table loop for one candidate: a name matching sys_yield
or sys_exit is bound to that routine's (non-zero) address; any other
name leaves the loop unbound. -/
theorem tableLoop_resolves (sy se : Nat) (hsy : sy ≠ 0) (hse : se ≠ 0)
    (nm : String) (va : Nat) :
    tableLoop nm va (ASM_EXPORTED_FUNCTIONS sy se) =
      if nm = "sys_yield" then some ([(va, sy)], true)
      else if nm = "sys_exit" then some ([(va, se)], true)
      else some ([], false) := by
  by_cases h1 : nm = "sys_yield"
  · subst h1
    simp [tableLoop, ASM_EXPORTED_FUNCTIONS, hsy]
  · by_cases h2 : nm = "sys_exit"
    · subst h2
      simp [tableLoop, ASM_EXPORTED_FUNCTIONS, hse, Ne.symm h1]
    · simp [tableLoop, ASM_EXPORTED_FUNCTIONS, Ne.symm h1, Ne.symm h2, h1, h2]

/-- The symbol loop writes exactly one value per binding candidate, in
symbol-table order, with the claimed resolution order, and skips every
non-candidate. -/
theorem symLoop_eq_filterMap (sy se : Nat) (ff : String → Nat)
    (hsy : sy ≠ 0) (hse : se ≠ 0) (bssS bssE : Nat)
    (syms : List Elf64_Sym) :
    symLoop sy se ff bssS bssE syms =
      some (syms.filterMap (fun sym =>
        if isCandidate bssS bssE sym then
          some (sym.st_value, claimResolve sy se ff sym.st_name_str)
        else none)) := by
  induction syms with
  | nil => rfl
  | cons sym rest ih =>
    rw [List.filterMap_cons]
    by_cases hcand : isCandidate bssS bssE sym
    · rw [if_pos hcand]
      obtain ⟨hb, ht, hs1, hs2⟩ := hcand
      simp only [symLoop]
      rw [if_neg (by simp [hb, ht]), if_neg (by omega)]
      rw [tableLoop_resolves sy se hsy hse]
      by_cases h1 : sym.st_name_str = "sys_yield"
      · rw [if_pos h1]
        simp [ih, claimResolve, h1]
      · by_cases h2 : sym.st_name_str = "sys_exit"
        · rw [if_neg h1, if_pos h2]
          simp [ih, claimResolve, h1, h2]
        · rw [if_neg h1, if_neg h2]
          by_cases hff : ff sym.st_name_str ≠ 0
          · simp [ih, claimResolve, h1, h2, hff]
          · push_neg at hff
            simp [ih, claimResolve, h1, h2, hff]
    · rw [if_neg hcand]
      simp only [symLoop]
      unfold isCandidate at hcand
      push_neg at hcand
      by_cases hb : sym.st_info / 16 = 1 ∧ sym.st_info % 16 = 1
      · rw [if_neg (by simp [hb.1, hb.2])]
        have hrange : sym.st_value < bssS ∨ bssE ≤ sym.st_value := by
          have := hcand hb.1 hb.2
          omega
        rw [if_pos hrange]
        exact ih
      · rw [if_pos (by
          rcases Decidable.not_and_iff_or_not.mp hb with h | h
          · exact Or.inl h
          · exact Or.inr h)]
        exact ih

/-- C2: for a loaded image with valid binding metadata (name section of
string-table type, a .bss section, a .strtab string table and a symbol
table), the Binder patches exactly the binding candidates — global
(binding 1) object (type 1) symbols whose address lies in the .bss
range — writing, in symbol-table order: the kernel routine's address
on an exact name match with the fixed table (sys_yield, sys_exit),
else the external resolver's non-zero answer, else zero; all other
symbols are untouched. -/
theorem bind_functions_resolution (img : ElfImage) (sy se : Nat)
    (ff : String → Nat) (bsec st symtab : Secthdr)
    (hsy : sy ≠ 0) (hse : se ≠ 0)
    (hname : (img.sections.getD img.e_shstrndx {}).sh_type = ELF_SHT_STRTAB)
    (hbss : img.sections.find? (fun s => s.sh_name_str == ".bss") = some bsec)
    (hstr : img.sections.find?
      (fun s => s.sh_type == ELF_SHT_STRTAB && s.sh_name_str == ".strtab") = some st)
    (hsym : img.sections.find? (fun s => s.sh_type == ELF_SHT_SYMTAB) = some symtab) :
    bind_functions img sy se ff = .ok
      ((img.symbols.take (symtab.sh_size / SIZEOF_ELF64_SYM)).filterMap
        (fun sym =>
          if isCandidate bsec.sh_addr ((bsec.sh_addr + bsec.sh_size) % U64) sym
          then some (sym.st_value, claimResolve sy se ff sym.st_name_str)
          else none)) := by
  unfold bind_functions
  rw [if_neg (not_not_intro hname)]
  simp only [hbss, hstr, hsym]
  rw [symLoop_eq_filterMap sy se ff hsy hse]

/-- Witness for C2: in `imgBind` the single in-.bss global object
symbol named sys_yield is bound to the kernel address 300; the
out-of-.bss symbol is untouched. -/
theorem bind_functions_resolution_witness :
    bind_functions imgBind 300 400 ffZero = .ok [(0x1080, 300)] := by
  have h := bind_functions_resolution imgBind 300 400 ffZero bindBss
    ({ sh_name_str := ".strtab", sh_type := 3, sh_offset := 96, sh_size := 24 })
    bindSymtab (by decide) (by decide) (by decide) (by decide) (by decide)
    (by decide)
  rw [h]
  decide

/-- C9: the Binder fails with a negative code exactly when the
section named by the header's name-section index is not of
string-table type, or no section named .bss exists, or no string-table
section named .strtab exists; when those all exist but no section of
symbol-table type exists, binding succeeds with zero writes. -/
theorem bind_functions_failure_iff (img : ElfImage) (sy se : Nat)
    (ff : String → Nat) :
    ((∃ c, bind_functions img sy se ff = .err c ∧ c < 0) ↔
      ((img.sections.getD img.e_shstrndx {}).sh_type ≠ ELF_SHT_STRTAB ∨
        img.sections.find? (fun s => s.sh_name_str == ".bss") = none ∨
        img.sections.find?
          (fun s => s.sh_type == ELF_SHT_STRTAB && s.sh_name_str == ".strtab") =
          none)) ∧
    ((img.sections.getD img.e_shstrndx {}).sh_type = ELF_SHT_STRTAB →
      img.sections.find? (fun s => s.sh_name_str == ".bss") ≠ none →
      img.sections.find?
        (fun s => s.sh_type == ELF_SHT_STRTAB && s.sh_name_str == ".strtab") ≠
        none →
      img.sections.find? (fun s => s.sh_type == ELF_SHT_SYMTAB) = none →
      bind_functions img sy se ff = .ok []) := by
  by_cases h1 : (img.sections.getD img.e_shstrndx {}).sh_type = ELF_SHT_STRTAB
  · cases hb : img.sections.find? (fun s => s.sh_name_str == ".bss") with
    | none =>
      have hres : bind_functions img sy se ff = .err (-2) := by
        unfold bind_functions
        rw [if_neg (not_not_intro h1)]
        simp only [hb]
      refine ⟨⟨fun _ => Or.inr (Or.inl rfl), fun _ => ⟨-2, hres, by norm_num⟩⟩, ?_⟩
      intro _ habs _ _
      exact absurd rfl habs
    | some bsec =>
      cases hst : img.sections.find?
          (fun s => s.sh_type == ELF_SHT_STRTAB && s.sh_name_str == ".strtab") with
      | none =>
        have hres : bind_functions img sy se ff = .err (-3) := by
          unfold bind_functions
          rw [if_neg (not_not_intro h1)]
          simp only [hb, hst]
        refine ⟨⟨fun _ => Or.inr (Or.inr rfl), fun _ => ⟨-3, hres, by norm_num⟩⟩, ?_⟩
        intro _ _ habs _
        exact absurd rfl habs
      | some st =>
        have hnodis : ¬((img.sections.getD img.e_shstrndx {}).sh_type ≠ ELF_SHT_STRTAB ∨
            (some bsec : Option Secthdr) = none ∨
            (some st : Option Secthdr) = none) := by
          rintro (h | h | h)
          · exact absurd h1 h
          · exact Option.noConfusion h
          · exact Option.noConfusion h
        cases hsy2 : img.sections.find? (fun s => s.sh_type == ELF_SHT_SYMTAB) with
        | none =>
          have hres : bind_functions img sy se ff = .ok [] := by
            unfold bind_functions
            rw [if_neg (not_not_intro h1)]
            simp only [hb, hst, hsy2]
          refine ⟨⟨?_, fun hdis => absurd hdis hnodis⟩, fun _ _ _ _ => hres⟩
          rintro ⟨c, hc, _⟩
          rw [hres] at hc
          exact BindResult.noConfusion hc
        | some symtab =>
          cases hsl : symLoop sy se ff bsec.sh_addr
              ((bsec.sh_addr + bsec.sh_size) % U64)
              (img.symbols.take (symtab.sh_size / SIZEOF_ELF64_SYM)) with
          | none =>
            have hres : bind_functions img sy se ff = .panicked := by
              unfold bind_functions
              rw [if_neg (not_not_intro h1)]
              simp only [hb, hst, hsy2, hsl]
            refine ⟨⟨?_, fun hdis => absurd hdis hnodis⟩, ?_⟩
            · rintro ⟨c, hc, _⟩
              rw [hres] at hc
              exact BindResult.noConfusion hc
            · intro _ _ _ habs
              exact Option.noConfusion habs
          | some ws =>
            have hres : bind_functions img sy se ff = .ok ws := by
              unfold bind_functions
              rw [if_neg (not_not_intro h1)]
              simp only [hb, hst, hsy2, hsl]
            refine ⟨⟨?_, fun hdis => absurd hdis hnodis⟩, ?_⟩
            · rintro ⟨c, hc, _⟩
              rw [hres] at hc
              exact BindResult.noConfusion hc
            · intro _ _ _ habs
              exact Option.noConfusion habs
  · have hres : bind_functions img sy se ff = .err (-1) := by
      unfold bind_functions
      rw [if_pos h1]
    refine ⟨⟨fun _ => Or.inl h1, fun _ => ⟨-1, hres, by norm_num⟩⟩, ?_⟩
    intro habs
    exact absurd habs h1

end KernEnv
